import Mathlib

/-!
Shallow embedding of `src/src/icp_rust_boilerplate_backend/src/lib.rs`, an
inventory canister for a bakery shop.  Rust `u64`/`u32` values are modelled as
`Nat`; where overflow matters the bound is stated explicitly against
`u64Limit` / `u32Limit`.  The stable BTree map is modelled as an association
list with first-match lookup, insert-or-replace and remove.  `ic_cdk::api::time`
is modelled by passing the current time `now` into each mutating operation.
Fallible operations return an `Outcome`, whose `ok`/`err` constructors model
Rust's `Ok`/`Err` and whose `trap` constructor models a canister trap (panic);
a trapped call leaves the state unchanged (the IC rolls the message back).
-/

namespace IcpBakery

/-- The `Category` enum of lib.rs: `Bakery` (the default), `Cake`, `Cookies`. -/
inductive Category where
  | Bakery
  | Cake
  | Cookies
deriving DecidableEq

/-- The `Product` record of lib.rs (`id : u64`, `quantity : u32`,
`created_at : u64`, `updated_at : Option<u64>`). -/
structure Product where
  id : Nat
  name : String
  category : Category
  quantity : Nat
  created_at : Nat
  updated_at : Option Nat
deriving DecidableEq

/-- The `ProductPayload` struct used to create or update a product. -/
structure ProductPayload where
  name : String
  quantity : Nat
  category : Category
deriving DecidableEq

/-- The `StockPayload` struct for adding or removing stock. -/
structure StockPayload where
  amount : Nat
deriving DecidableEq

/-- The `Error` enum of lib.rs. -/
inductive Error where
  | NotFound (msg : String)
  | InvalidOperation (msg : String)
deriving DecidableEq

/-- Result of a canister call: `ok`/`err` model Rust `Ok`/`Err`; `trap` models a
panic (e.g. `expect` failing, or a checked-arithmetic fatal error). -/
inductive Outcome (α : Type) where
  | ok (a : α)
  | err (e : Error)
  | trap
deriving DecidableEq

/-- One more than the largest `u32` value, i.e. `2 ^ 32`. -/
def u32Limit : Nat := 4294967296

/-- One more than the largest `u64` value, i.e. `2 ^ 64`. -/
def u64Limit : Nat := 18446744073709551616

/-- First-match lookup in the association-list model of `StableBTreeMap`. -/
def mapGet : List (Nat × Product) → Nat → Option Product
  | [], _ => none
  | (k, v) :: rest, key => if k = key then some v else mapGet rest key

/-- Insert-or-replace in the association-list model of `StableBTreeMap`. -/
def mapInsert : List (Nat × Product) → Nat → Product → List (Nat × Product)
  | [], key, v => [(key, v)]
  | (k, w) :: rest, key, v =>
    if k = key then (key, v) :: rest else (k, w) :: mapInsert rest key v

/-- Removal of the (first) entry of a key, modelling `StableBTreeMap::remove`. -/
def mapRemove : List (Nat × Product) → Nat → List (Nat × Product)
  | [], _ => []
  | (k, w) :: rest, key => if k = key then rest else (k, w) :: mapRemove rest key

/-- The canister's mutable state: the `ID_COUNTER` cell and the `STORAGE` map. -/
structure StoreState where
  idCounter : Nat
  storage : List (Nat × Product)
deriving DecidableEq

/-- The state on first use: counter cell initialized to 0, empty map. -/
def initState : StoreState := { idCounter := 0, storage := [] }

/-- Modelled from the spec: the counter cell (`IdCell`) and its `set` method
live in the external `ic-stable-structures` collaborator, whose code is not
under src/.  Per the spec the allocator "persistently increments the counter
by 1 and returns the new value", the first allocated id being 1, and the
counter is a 64-bit unsigned scalar, so an increment past the `u64` maximum
cannot be represented and is a fatal error (`none`, a trap).  `counterIncrement k`
returns the pair (allocated id, new counter value). -/
def counterIncrement (k : Nat) : Option (Nat × Nat) :=
  if k + 1 < u64Limit then some (k + 1, k + 1) else none

/-- Modelled from the spec: src/ holds no build profile, so whether the Rust
`+=` in `add_quantity` wraps or panics on `u32` overflow is not determined by
the source; the spec resolves this open question as "a fatal internal error
rather than silent wraparound".  `checkedAddU32` hence returns `none` (a trap)
when the sum exceeds the `u32` maximum, and the exact sum otherwise. -/
def checkedAddU32 (a b : Nat) : Option Nat :=
  if a + b < u32Limit then some (a + b) else none

/-- Rust `char::is_whitespace`: the Unicode White_Space property, i.e. the 25
code points U+0009..U+000D, U+0020, U+0085, U+00A0, U+1680, U+2000..U+200A,
U+2028, U+2029, U+202F, U+205F and U+3000. -/
def rustIsWhitespace (c : Char) : Bool :=
  [0x09, 0x0A, 0x0B, 0x0C, 0x0D, 0x20, 0x85, 0xA0, 0x1680,
    0x2000, 0x2001, 0x2002, 0x2003, 0x2004, 0x2005, 0x2006, 0x2007, 0x2008,
    0x2009, 0x200A, 0x2028, 0x2029, 0x202F, 0x205F, 0x3000].contains c.toNat

/-- Rust `name.trim().is_empty()`: true exactly when every character of the
string has the Unicode White_Space property, so that trimming surrounding
whitespace leaves the string empty.  (Stated over the character list so that
it evaluates inside the kernel.) -/
def trimIsEmpty (s : String) : Bool :=
  s.data.all rustIsWhitespace

/-- `validate_product_payload` of lib.rs. -/
def validate_product_payload (payload : ProductPayload) : Except Error Unit :=
  if trimIsEmpty payload.name then
    Except.error (Error.InvalidOperation "Product name cannot be empty.")
  else if payload.quantity = 0 then
    Except.error (Error.InvalidOperation "Product quantity must be greater than zero.")
  else
    Except.ok ()

/-- `validate_stock_payload` of lib.rs. -/
def validate_stock_payload (payload : StockPayload) : Except Error Unit :=
  if payload.amount = 0 then
    Except.error (Error.InvalidOperation "Stock amount must be greater than zero.")
  else
    Except.ok ()

/-- The helper `_get_product` of lib.rs. -/
def _get_product (s : StoreState) (id : Nat) : Option Product :=
  mapGet s.storage id

/-- The query `get_product` of lib.rs. -/
def get_product (s : StoreState) (id : Nat) : Outcome Product :=
  match _get_product s id with
  | some product => Outcome.ok product
  | none =>
      Outcome.err (Error.NotFound
        ("A product with id=" ++ toString id ++ " was not found"))

/-- The query `get_stock` of lib.rs. -/
def get_stock (s : StoreState) (id : Nat) : Outcome Nat :=
  match _get_product s id with
  | some product => Outcome.ok product.quantity
  | none =>
      Outcome.err (Error.NotFound
        ("A product with id=" ++ toString id ++ " was not found"))

/-- The helper `do_insert` of lib.rs: inserts the product keyed by its own id. -/
def do_insert (s : StoreState) (product : Product) : StoreState :=
  { s with storage := mapInsert s.storage product.id product }

/-- The update call `add_product` of lib.rs: validate the payload, draw a fresh
id from the counter, build the record with `created_at := now` and
`updated_at := none`, insert it and return it. -/
def add_product (s : StoreState) (now : Nat) (product : ProductPayload) :
    Outcome Product × StoreState :=
  match validate_product_payload product with
  | Except.error e => (Outcome.err e, s)
  | Except.ok _ =>
    match counterIncrement s.idCounter with
    | none => (Outcome.trap, s)
    | some (id, newCounter) =>
      let item : Product :=
        { id := id, name := product.name, category := product.category,
          quantity := product.quantity, created_at := now, updated_at := none }
      (Outcome.ok item, do_insert { s with idCounter := newCounter } item)

/-- The update call `update_product` of lib.rs: validate the payload, then look
the record up, overwrite `name`, `category`, `quantity`, stamp `updated_at`,
re-insert. -/
def update_product (s : StoreState) (now : Nat) (id : Nat)
    (payload : ProductPayload) : Outcome Product × StoreState :=
  match validate_product_payload payload with
  | Except.error e => (Outcome.err e, s)
  | Except.ok _ =>
    match mapGet s.storage id with
    | some product =>
      let product :=
        { product with
          name := payload.name,
          category := payload.category,
          quantity := payload.quantity,
          updated_at := some now }
      (Outcome.ok product, do_insert s product)
    | none =>
      (Outcome.err (Error.NotFound
        ("Couldn't update a product with id=" ++ toString id ++ ". Product not found")), s)

/-- The update call `add_quantity` of lib.rs: validate the stock payload, look
the record up, `quantity += amount` (checked, see `checkedAddU32`), stamp
`updated_at`, re-insert. -/
def add_quantity (s : StoreState) (now : Nat) (id : Nat)
    (payload : StockPayload) : Outcome Product × StoreState :=
  match validate_stock_payload payload with
  | Except.error e => (Outcome.err e, s)
  | Except.ok _ =>
    match mapGet s.storage id with
    | some product =>
      match checkedAddU32 product.quantity payload.amount with
      | none => (Outcome.trap, s)
      | some q =>
        let product := { product with quantity := q, updated_at := some now }
        (Outcome.ok product, do_insert s product)
    | none =>
      (Outcome.err (Error.NotFound
        ("Couldn't add quantity to product with id=" ++ toString id ++ ". Product not found")), s)

/-- The update call `offload_quantity` of lib.rs: validate the stock payload,
look the record up, guard against `quantity == 0` and against
`amount > quantity`, then `quantity -= amount`, stamp `updated_at`, re-insert. -/
def offload_quantity (s : StoreState) (now : Nat) (id : Nat)
    (payload : StockPayload) : Outcome Product × StoreState :=
  match validate_stock_payload payload with
  | Except.error e => (Outcome.err e, s)
  | Except.ok _ =>
    match mapGet s.storage id with
    | some product =>
      if product.quantity = 0 then
        (Outcome.err (Error.InvalidOperation
          ("Product with id=" ++ toString id ++
            " cannot be offloaded because the quantity is 0")), s)
      else if product.quantity < payload.amount then
        (Outcome.err (Error.InvalidOperation
          ("Cannot offload more than available quantity. Available: " ++
            toString product.quantity ++ ", Trying to offload: " ++
            toString payload.amount)), s)
      else
        let product :=
          { product with
            quantity := product.quantity - payload.amount,
            updated_at := some now }
        (Outcome.ok product, do_insert s product)
    | none =>
      (Outcome.err (Error.NotFound
        ("Couldn't offload a product with id=" ++ toString id ++ ". Product not found")), s)

/-- The update call `remove_product` of lib.rs: `STORAGE.remove(&id)` returns
the prior value when present. -/
def remove_product (s : StoreState) (id : Nat) : Outcome Product × StoreState :=
  match mapGet s.storage id with
  | some product => (Outcome.ok product, { s with storage := mapRemove s.storage id })
  | none =>
    (Outcome.err (Error.NotFound
      ("Couldn't delete a product with id=" ++ toString id ++ ". Product not found")), s)

/-- One external call into the canister, with the time it observes. -/
inductive Call where
  | addProduct (now : Nat) (p : ProductPayload)
  | updateProduct (now : Nat) (id : Nat) (p : ProductPayload)
  | addQuantity (now : Nat) (id : Nat) (p : StockPayload)
  | offloadQuantity (now : Nat) (id : Nat) (p : StockPayload)
  | removeProduct (id : Nat)

/-- The state after executing one call (calls run to completion one at a time). -/
def step (s : StoreState) : Call → StoreState
  | Call.addProduct now p => (add_product s now p).2
  | Call.updateProduct now id p => (update_product s now id p).2
  | Call.addQuantity now id p => (add_quantity s now id p).2
  | Call.offloadQuantity now id p => (offload_quantity s now id p).2
  | Call.removeProduct id => (remove_product s id).2

/-- The state after executing a sequence of calls. -/
def execTrace : StoreState → List Call → StoreState
  | s, [] => s
  | s, c :: cs => execTrace (step s c) cs

/-- A state is reachable when some call sequence produces it from `initState`. -/
def Reachable (s : StoreState) : Prop :=
  ∃ cs, s = execTrace initState cs

/-- The ids returned by one call: a successful `add_product` returns the id of
the record it created, every other call returns no id. -/
def callIds (s : StoreState) (c : Call) : List Nat :=
  match c with
  | Call.addProduct now p =>
    match (add_product s now p).1 with
    | Outcome.ok item => [item.id]
    | _ => []
  | _ => []

/-- The ids returned by the successful `add_product` calls of a sequence, in
call order. -/
def traceIds : StoreState → List Call → List Nat
  | _, [] => []
  | s, c :: cs => callIds s c ++ traceIds (step s c) cs

/-- A list of naturals counting up by one from just above `k`. -/
def Consecutive : Nat → List Nat → Prop
  | _, [] => True
  | k, i :: rest => i = k + 1 ∧ Consecutive i rest

theorem do_insert_idCounter (s : StoreState) (p : Product) :
    (do_insert s p).idCounter = s.idCounter := rfl

theorem do_insert_storage (s : StoreState) (p : Product) :
    (do_insert s p).storage = mapInsert s.storage p.id p := rfl

theorem mapGet_mapInsert_self (m : List (Nat × Product)) (k : Nat) (v : Product) :
    mapGet (mapInsert m k v) k = some v := by
  induction m with
  | nil => simp [mapInsert, mapGet]
  | cons hd tl ih =>
    obtain ⟨k1, v1⟩ := hd
    by_cases h : k1 = k <;> simp [mapInsert, mapGet, h, ih]

theorem mapGet_mapInsert_ne (m : List (Nat × Product)) (k key : Nat) (v : Product)
    (h : key ≠ k) : mapGet (mapInsert m k v) key = mapGet m key := by
  have hk : ¬(k = key) := fun e => h e.symm
  induction m with
  | nil => simp [mapInsert, mapGet, hk]
  | cons hd tl ih =>
    obtain ⟨k1, v1⟩ := hd
    by_cases h1 : k1 = k
    · subst h1
      simp [mapInsert, mapGet, hk]
    · simp [mapInsert, mapGet, h1, ih]

theorem update_product_idCounter (s : StoreState) (now id : Nat)
    (pay : ProductPayload) :
    (update_product s now id pay).2.idCounter = s.idCounter := by
  unfold update_product
  split
  · rfl
  · split <;> rfl

theorem add_quantity_idCounter (s : StoreState) (now id : Nat)
    (pay : StockPayload) :
    (add_quantity s now id pay).2.idCounter = s.idCounter := by
  unfold add_quantity
  split
  · rfl
  · split
    · split <;> rfl
    · rfl

theorem offload_quantity_idCounter (s : StoreState) (now id : Nat)
    (pay : StockPayload) :
    (offload_quantity s now id pay).2.idCounter = s.idCounter := by
  unfold offload_quantity
  split
  · rfl
  · split
    · split
      · rfl
      · split <;> rfl
    · rfl

theorem remove_product_idCounter (s : StoreState) (id : Nat) :
    (remove_product s id).2.idCounter = s.idCounter := by
  unfold remove_product
  split <;> rfl

theorem add_product_ok_elim (s : StoreState) (now : Nat) (pay : ProductPayload)
    (item : Product) (h : (add_product s now pay).1 = Outcome.ok item) :
    validate_product_payload pay = Except.ok () ∧
    item = { id := s.idCounter + 1, name := pay.name, category := pay.category,
             quantity := pay.quantity, created_at := now, updated_at := none } ∧
    (add_product s now pay).2 =
      do_insert { s with idCounter := s.idCounter + 1 } item := by
  cases hv : validate_product_payload pay with
  | error e => simp [add_product, hv] at h
  | ok u =>
    cases u
    by_cases hl : s.idCounter + 1 < u64Limit
    · simp only [add_product, hv, counterIncrement, if_pos hl] at h
      rw [Outcome.ok.injEq] at h
      subst h
      refine ⟨rfl, rfl, ?_⟩
      simp only [add_product, hv, counterIncrement, if_pos hl]
    · simp [add_product, hv, counterIncrement, if_neg hl] at h

theorem callIds_step_cases (s : StoreState) (c : Call) :
    ((step s c).idCounter = s.idCounter ∧ callIds s c = []) ∨
    ((step s c).idCounter = s.idCounter + 1 ∧ callIds s c = [s.idCounter + 1]) := by
  cases c with
  | addProduct now p =>
    simp only [step, callIds]
    cases hv : validate_product_payload p with
    | error e =>
      left
      simp [add_product, hv]
    | ok u =>
      cases u
      by_cases hl : s.idCounter + 1 < u64Limit
      · right
        simp [add_product, hv, counterIncrement, if_pos hl, do_insert]
      · left
        simp [add_product, hv, counterIncrement, if_neg hl]
  | updateProduct now id p => exact Or.inl ⟨update_product_idCounter s now id p, rfl⟩
  | addQuantity now id p => exact Or.inl ⟨add_quantity_idCounter s now id p, rfl⟩
  | offloadQuantity now id p => exact Or.inl ⟨offload_quantity_idCounter s now id p, rfl⟩
  | removeProduct id => exact Or.inl ⟨remove_product_idCounter s id, rfl⟩

theorem consecutive_traceIds (cs : List Call) :
    ∀ s : StoreState, Consecutive s.idCounter (traceIds s cs) := by
  induction cs with
  | nil => intro s; trivial
  | cons c cs ih =>
    intro s
    rcases callIds_step_cases s c with ⟨hk, hids⟩ | ⟨hk, hids⟩
    · show Consecutive s.idCounter (callIds s c ++ traceIds (step s c) cs)
      rw [hids, List.nil_append, ← hk]
      exact ih (step s c)
    · show Consecutive s.idCounter (callIds s c ++ traceIds (step s c) cs)
      rw [hids, List.singleton_append]
      exact ⟨rfl, by rw [← hk]; exact ih (step s c)⟩

theorem offload_quantity_ok_elim (s : StoreState) (now id : Nat)
    (pay : StockPayload) (q : Product)
    (h : (offload_quantity s now id pay).1 = Outcome.ok q) :
    0 < pay.amount ∧ ∃ p, mapGet s.storage id = some p ∧ 0 < p.quantity ∧
      pay.amount ≤ p.quantity ∧
      q = { p with quantity := p.quantity - pay.amount, updated_at := some now } ∧
      (offload_quantity s now id pay).2 = do_insert s q := by
  by_cases h0 : pay.amount = 0
  · simp [offload_quantity, validate_stock_payload, h0] at h
  · cases hm : mapGet s.storage id with
    | none => simp [offload_quantity, validate_stock_payload, h0, hm] at h
    | some p =>
      by_cases hq : p.quantity = 0
      · simp [offload_quantity, validate_stock_payload, h0, hm, hq] at h
      · by_cases hlt : p.quantity < pay.amount
        · simp [offload_quantity, validate_stock_payload, h0, hm, hq, hlt] at h
        · simp only [offload_quantity, validate_stock_payload, if_neg h0, hm,
            if_neg hq, if_neg hlt] at h
          rw [Outcome.ok.injEq] at h
          subst h
          refine ⟨Nat.pos_of_ne_zero h0, p, rfl, Nat.pos_of_ne_zero hq,
            Nat.le_of_not_lt hlt, rfl, ?_⟩
          simp only [offload_quantity, validate_stock_payload, if_neg h0, hm,
            if_neg hq, if_neg hlt]

theorem offload_quantity_err_state (s : StoreState) (now id : Nat)
    (pay : StockPayload) (e : Error)
    (h : (offload_quantity s now id pay).1 = Outcome.err e) :
    (offload_quantity s now id pay).2 = s := by
  by_cases h0 : pay.amount = 0
  · simp [offload_quantity, validate_stock_payload, h0]
  · cases hm : mapGet s.storage id with
    | none => simp [offload_quantity, validate_stock_payload, h0, hm]
    | some p =>
      by_cases hq : p.quantity = 0
      · simp [offload_quantity, validate_stock_payload, h0, hm, hq]
      · by_cases hlt : p.quantity < pay.amount
        · simp [offload_quantity, validate_stock_payload, h0, hm, hq, hlt]
        · simp [offload_quantity, validate_stock_payload, h0, hm, hq, hlt] at h

theorem offload_quantity_ok_intro (s : StoreState) (now id : Nat)
    (pay : StockPayload) (p : Product)
    (hm : mapGet s.storage id = some p)
    (h0 : pay.amount ≠ 0) (hq : p.quantity ≠ 0) (hle : pay.amount ≤ p.quantity) :
    (offload_quantity s now id pay).1 =
      Outcome.ok
        { p with
          quantity := p.quantity - pay.amount,
          updated_at := some now } := by
  have hlt : ¬(p.quantity < pay.amount) := Nat.not_lt.mpr hle
  simp [offload_quantity, validate_stock_payload, h0, hm, hq, hlt]

theorem add_quantity_ok_elim (s : StoreState) (now id : Nat)
    (pay : StockPayload) (q : Product)
    (h : (add_quantity s now id pay).1 = Outcome.ok q) :
    0 < pay.amount ∧ ∃ p, mapGet s.storage id = some p ∧
      p.quantity + pay.amount < u32Limit ∧
      q = { p with quantity := p.quantity + pay.amount, updated_at := some now } ∧
      (add_quantity s now id pay).2 = do_insert s q := by
  by_cases h0 : pay.amount = 0
  · simp [add_quantity, validate_stock_payload, h0] at h
  · cases hm : mapGet s.storage id with
    | none => simp [add_quantity, validate_stock_payload, h0, hm] at h
    | some p =>
      by_cases hov : p.quantity + pay.amount < u32Limit
      · simp only [add_quantity, validate_stock_payload, if_neg h0, hm,
          checkedAddU32, if_pos hov] at h
        rw [Outcome.ok.injEq] at h
        subst h
        refine ⟨Nat.pos_of_ne_zero h0, p, rfl, hov, rfl, ?_⟩
        simp only [add_quantity, validate_stock_payload, if_neg h0, hm,
          checkedAddU32, if_pos hov]
      · simp [add_quantity, validate_stock_payload, h0, hm, checkedAddU32, hov] at h

theorem add_quantity_overflow_traps (s : StoreState) (now id : Nat)
    (pay : StockPayload) (p : Product)
    (h0 : pay.amount ≠ 0) (hm : mapGet s.storage id = some p)
    (hov : u32Limit ≤ p.quantity + pay.amount) :
    (add_quantity s now id pay).1 = Outcome.trap ∧
    (add_quantity s now id pay).2 = s := by
  have hlt : ¬(p.quantity + pay.amount < u32Limit) := Nat.not_lt.mpr hov
  constructor <;>
    simp [add_quantity, validate_stock_payload, h0, hm, checkedAddU32, hlt]

theorem consecutive_mem_lt (l : List Nat) :
    ∀ k : Nat, Consecutive k l → ∀ x ∈ l, k < x := by
  induction l with
  | nil =>
    intro k _ x hx
    simp at hx
  | cons i rest ih =>
    intro k h x hx
    obtain ⟨hi, hrest⟩ := h
    rcases List.mem_cons.mp hx with rfl | hx2
    · omega
    · have := ih i hrest x hx2
      omega

theorem consecutive_pairwise (l : List Nat) :
    ∀ k : Nat, Consecutive k l → l.Pairwise (fun a b => a < b) := by
  induction l with
  | nil =>
    intro k _
    exact List.Pairwise.nil
  | cons i rest ih =>
    intro k h
    obtain ⟨hi, hrest⟩ := h
    exact List.pairwise_cons.mpr ⟨consecutive_mem_lt rest i hrest, ih i hrest⟩

theorem consecutive_chain (l : List Nat) :
    ∀ k : Nat, Consecutive k l → List.Chain' (fun a b => a < b) l := by
  induction l with
  | nil => intro k _; exact List.chain'_nil
  | cons i rest ih =>
    intro k h
    obtain ⟨hi, hrest⟩ := h
    refine List.chain'_cons'.mpr ⟨?_, ih i hrest⟩
    intro b hb
    cases rest with
    | nil => simp at hb
    | cons j rest2 =>
      obtain ⟨hj, -⟩ := hrest
      simp only [List.head?_cons, Option.mem_def, Option.some.injEq] at hb
      omega

/-- C1: for every reachable store state, the subtraction in `offload_quantity`
is reached only when the payload amount is positive, the record exists, its
quantity is positive and the amount does not exceed it; a successful call
computes the exact integer difference, which is non-negative (no underflow),
and every record of any reachable state has a non-negative quantity. -/
theorem offload_quantity_no_underflow (s : StoreState) (hs : Reachable s)
    (now id : Nat) (pay : StockPayload) :
    (∀ q, (offload_quantity s now id pay).1 = Outcome.ok q →
      0 < pay.amount ∧ ∃ p, _get_product s id = some p ∧ 0 < p.quantity ∧
        pay.amount ≤ p.quantity ∧
        (q.quantity : Int) = (p.quantity : Int) - (pay.amount : Int) ∧
        0 ≤ (q.quantity : Int)) ∧
    (∀ i p, _get_product s i = some p → 0 ≤ (p.quantity : Int)) := by
  refine ⟨?_, fun i p _ => by omega⟩
  intro q hq
  obtain ⟨ha, p, hm, hpq, hle, hq2, -⟩ := offload_quantity_ok_elim s now id pay q hq
  refine ⟨ha, p, hm, hpq, hle, ?_, by omega⟩
  subst hq2
  simp only
  omega

/-- C1 witness: the state reached by creating Bread with quantity 10,
offloading 3 from product 1. -/
theorem offload_quantity_no_underflow_witness :
    (∀ q, (offload_quantity
        (execTrace initState [Call.addProduct 5 ⟨"Bread", 10, Category.Bakery⟩])
        7 1 ⟨3⟩).1 = Outcome.ok q →
      0 < (⟨3⟩ : StockPayload).amount ∧
      ∃ p, _get_product
          (execTrace initState [Call.addProduct 5 ⟨"Bread", 10, Category.Bakery⟩])
          1 = some p ∧ 0 < p.quantity ∧
        (⟨3⟩ : StockPayload).amount ≤ p.quantity ∧
        (q.quantity : Int) = (p.quantity : Int) - ((⟨3⟩ : StockPayload).amount : Int) ∧
        0 ≤ (q.quantity : Int)) ∧
    (∀ i p, _get_product
        (execTrace initState [Call.addProduct 5 ⟨"Bread", 10, Category.Bakery⟩])
        i = some p → 0 ≤ (p.quantity : Int)) :=
  offload_quantity_no_underflow
    (execTrace initState [Call.addProduct 5 ⟨"Bread", 10, Category.Bakery⟩])
    ⟨[Call.addProduct 5 ⟨"Bread", 10, Category.Bakery⟩], rfl⟩ 7 1 ⟨3⟩

/-- C2: over any call sequence from the initial state, the ids returned by the
successful `add_product` calls are strictly increasing with no repeats (also
across interleaved removals and other calls); the counter starts at 0, the
first created product gets id 1, and each successful creation returns
counter + 1 and bumps the counter by exactly 1. -/
theorem add_product_ids_strictly_increasing (cs : List Call) :
    initState.idCounter = 0 ∧
    List.Chain' (fun a b => a < b) (traceIds initState cs) ∧
    (traceIds initState cs).Nodup ∧
    (∀ i rest, traceIds initState cs = i :: rest → i = 1) ∧
    (∀ s now p item, (add_product s now p).1 = Outcome.ok item →
      item.id = s.idCounter + 1 ∧
      ((add_product s now p).2).idCounter = s.idCounter + 1) := by
  have hcons := consecutive_traceIds cs initState
  have hpw := consecutive_pairwise (traceIds initState cs) initState.idCounter hcons
  refine ⟨rfl, hpw.chain', hpw.imp (fun hab => Nat.ne_of_lt hab), ?_, ?_⟩
  · intro i rest heq
    rw [heq] at hcons
    exact hcons.1
  · intro s now p item h
    obtain ⟨-, hitem, hstate⟩ := add_product_ok_elim s now p item h
    constructor
    · rw [hitem]
    · rw [hstate, do_insert_idCounter]

/-- C3: `add_quantity` performs a checked addition: with a live record and a
positive amount, a sum past the u32 maximum traps and leaves the state
unchanged, while a successful call stores exactly the full sum (never a
wrapped, smaller value). -/
theorem add_quantity_checked_overflow (s : StoreState) (now id : Nat)
    (pay : StockPayload) (p : Product)
    (hm : _get_product s id = some p) (ha : 0 < pay.amount) :
    (u32Limit ≤ p.quantity + pay.amount →
      (add_quantity s now id pay).1 = Outcome.trap ∧
      (add_quantity s now id pay).2 = s) ∧
    (∀ q, (add_quantity s now id pay).1 = Outcome.ok q →
      q.quantity = p.quantity + pay.amount ∧ q.quantity < u32Limit) := by
  constructor
  · intro hov
    exact add_quantity_overflow_traps s now id pay p (Nat.pos_iff_ne_zero.mp ha) hm hov
  · intro q hq
    obtain ⟨-, p2, hm2, hov, hq2, -⟩ := add_quantity_ok_elim s now id pay q hq
    have hp : p2 = p := by
      have hm3 : mapGet s.storage id = some p := hm
      rw [hm3] at hm2
      exact (Option.some.inj hm2).symm
    subst hp
    subst hq2
    exact ⟨rfl, hov⟩

/-- C3 witness: a record at the u32 maximum traps on add_quantity 1, and a
small add stores the exact sum. -/
theorem add_quantity_checked_overflow_witness :
    (u32Limit ≤ 4294967295 + (⟨1⟩ : StockPayload).amount →
      (add_quantity ⟨1, [(1, ⟨1, "Bread", Category.Bakery, 4294967295, 5, none⟩)]⟩
        7 1 ⟨1⟩).1 = Outcome.trap ∧
      (add_quantity ⟨1, [(1, ⟨1, "Bread", Category.Bakery, 4294967295, 5, none⟩)]⟩
        7 1 ⟨1⟩).2 =
        ⟨1, [(1, ⟨1, "Bread", Category.Bakery, 4294967295, 5, none⟩)]⟩) ∧
    (∀ q, (add_quantity ⟨1, [(1, ⟨1, "Bread", Category.Bakery, 4294967295, 5, none⟩)]⟩
        7 1 ⟨1⟩).1 = Outcome.ok q →
      q.quantity = 4294967295 + (⟨1⟩ : StockPayload).amount ∧ q.quantity < u32Limit) :=
  add_quantity_checked_overflow
    ⟨1, [(1, ⟨1, "Bread", Category.Bakery, 4294967295, 5, none⟩)]⟩ 7 1 ⟨1⟩
    ⟨1, "Bread", Category.Bakery, 4294967295, 5, none⟩ rfl (by decide)

/-- C4 counterexample: on the empty store the id 1 has no live record, yet
`update_product` with an invalid payload (empty name) fails with
`InvalidOperation`, not with `NotFound`: the code validates the payload before
resolving the target. -/
theorem update_product_absent_id_invalid_payload :
    _get_product initState 1 = none ∧
    (update_product initState 0 1 ⟨"", 5, Category.Cake⟩).1
      = Outcome.err (Error.InvalidOperation "Product name cannot be empty.") ∧
    ¬∃ m, (update_product initState 0 1 ⟨"", 5, Category.Cake⟩).1
      = Outcome.err (Error.NotFound m) := by
  refine ⟨rfl, by decide, ?_⟩
  rintro ⟨m, hm⟩
  rw [show (update_product initState 0 1 ⟨"", 5, Category.Cake⟩).1
      = Outcome.err (Error.InvalidOperation "Product name cannot be empty.")
    by decide] at hm
  simp at hm

/-- C4 (amended): payload validation runs before target resolution.  For an id
with no live record, `update_product`, `add_quantity` and `offload_quantity`
fail with `NotFound` exactly when the payload passes validation; an invalid
payload makes them fail with that payload's `InvalidOperation` error even
though the id is absent. -/
theorem validation_precedes_target_resolution (s : StoreState) (now id : Nat)
    (pp : ProductPayload) (sp : StockPayload)
    (habs : _get_product s id = none) :
    (validate_product_payload pp = Except.ok () →
      (update_product s now id pp).1 = Outcome.err (Error.NotFound
        ("Couldn't update a product with id=" ++ toString id ++ ". Product not found"))) ∧
    (∀ e, validate_product_payload pp = Except.error e →
      (update_product s now id pp).1 = Outcome.err e) ∧
    (validate_stock_payload sp = Except.ok () →
      (add_quantity s now id sp).1 = Outcome.err (Error.NotFound
        ("Couldn't add quantity to product with id=" ++ toString id ++ ". Product not found")) ∧
      (offload_quantity s now id sp).1 = Outcome.err (Error.NotFound
        ("Couldn't offload a product with id=" ++ toString id ++ ". Product not found"))) ∧
    (∀ e, validate_stock_payload sp = Except.error e →
      (add_quantity s now id sp).1 = Outcome.err e ∧
      (offload_quantity s now id sp).1 = Outcome.err e) := by
  have hm : mapGet s.storage id = none := habs
  refine ⟨?_, ?_, ?_, ?_⟩
  · intro hv
    simp [update_product, hv, hm]
  · intro e hv
    simp [update_product, hv]
  · intro hv
    constructor <;> simp [add_quantity, offload_quantity, hv, hm]
  · intro e hv
    constructor <;> simp [add_quantity, offload_quantity, hv]

/-- C4 witness: an absent id with a valid product payload and a stock payload
whose amount is 0, on the empty store. -/
theorem validation_precedes_target_resolution_witness :
    (validate_product_payload ⟨"Bread", 10, Category.Bakery⟩ = Except.ok () →
      (update_product initState 0 1 ⟨"Bread", 10, Category.Bakery⟩).1
        = Outcome.err (Error.NotFound
          ("Couldn't update a product with id=" ++ toString 1 ++ ". Product not found"))) ∧
    (∀ e, validate_product_payload ⟨"Bread", 10, Category.Bakery⟩ = Except.error e →
      (update_product initState 0 1 ⟨"Bread", 10, Category.Bakery⟩).1 = Outcome.err e) ∧
    (validate_stock_payload ⟨0⟩ = Except.ok () →
      (add_quantity initState 0 1 ⟨0⟩).1 = Outcome.err (Error.NotFound
        ("Couldn't add quantity to product with id=" ++ toString 1 ++ ". Product not found")) ∧
      (offload_quantity initState 0 1 ⟨0⟩).1 = Outcome.err (Error.NotFound
        ("Couldn't offload a product with id=" ++ toString 1 ++ ". Product not found"))) ∧
    (∀ e, validate_stock_payload ⟨0⟩ = Except.error e →
      (add_quantity initState 0 1 ⟨0⟩).1 = Outcome.err e ∧
      (offload_quantity initState 0 1 ⟨0⟩).1 = Outcome.err e) :=
  validation_precedes_target_resolution initState 0 1
    ⟨"Bread", 10, Category.Bakery⟩ ⟨0⟩ rfl

/-- C5: a creation payload whose name is whitespace-only or whose quantity is 0
makes `add_product` return `InvalidOperation` and leaves the state fully
unchanged: nothing inserted, counter not incremented. -/
theorem add_product_invalid_payload_rejected (s : StoreState) (now : Nat)
    (pay : ProductPayload)
    (h : trimIsEmpty pay.name = true ∨ pay.quantity = 0) :
    (∃ m, (add_product s now pay).1 = Outcome.err (Error.InvalidOperation m)) ∧
    (add_product s now pay).2 = s ∧
    (add_product s now pay).2.idCounter = s.idCounter := by
  rcases h with h | h
  · refine ⟨⟨"Product name cannot be empty.", ?_⟩, ?_, ?_⟩ <;>
      simp [add_product, validate_product_payload, h]
  · by_cases hn : trimIsEmpty pay.name
    · refine ⟨⟨"Product name cannot be empty.", ?_⟩, ?_, ?_⟩ <;>
        simp [add_product, validate_product_payload, hn]
    · refine ⟨⟨"Product quantity must be greater than zero.", ?_⟩, ?_, ?_⟩ <;>
        simp [add_product, validate_product_payload, hn, h]

/-- C5 witness: the spec's scenario, `add_product` with an empty name and
quantity 5 on the empty store. -/
theorem add_product_invalid_payload_rejected_witness :
    (∃ m, (add_product initState 3 ⟨"", 5, Category.Cake⟩).1
      = Outcome.err (Error.InvalidOperation m)) ∧
    (add_product initState 3 ⟨"", 5, Category.Cake⟩).2 = initState ∧
    (add_product initState 3 ⟨"", 5, Category.Cake⟩).2.idCounter
      = initState.idCounter :=
  add_product_invalid_payload_rejected initState 3 ⟨"", 5, Category.Cake⟩
    (Or.inl (by decide))

/-- C6 round-trip: when `add_product` succeeds and returns the record `r`, an
immediately following `get_product r.id` on the new state returns exactly `r`,
equal in every field. -/
theorem add_product_get_product_roundtrip (s : StoreState) (now : Nat)
    (pay : ProductPayload) (r : Product)
    (h : (add_product s now pay).1 = Outcome.ok r) :
    get_product (add_product s now pay).2 r.id = Outcome.ok r := by
  obtain ⟨-, hr, hstate⟩ := add_product_ok_elim s now pay r h
  rw [hstate]
  unfold get_product _get_product
  rw [do_insert_storage, mapGet_mapInsert_self]

/-- C6 witness: creating Bread on the empty store and reading it back. -/
theorem add_product_get_product_roundtrip_witness :
    (add_product initState 5 ⟨"Bread", 10, Category.Bakery⟩).1
      = Outcome.ok ⟨1, "Bread", Category.Bakery, 10, 5, none⟩ ∧
    get_product (add_product initState 5 ⟨"Bread", 10, Category.Bakery⟩).2
        (⟨1, "Bread", Category.Bakery, 10, 5, none⟩ : Product).id
      = Outcome.ok ⟨1, "Bread", Category.Bakery, 10, 5, none⟩ :=
  ⟨by decide,
    add_product_get_product_roundtrip initState 5 ⟨"Bread", 10, Category.Bakery⟩
      ⟨1, "Bread", Category.Bakery, 10, 5, none⟩ (by decide)⟩

/-- C7: for a live record of quantity Q, `offload_quantity` returns
`InvalidOperation` exactly when the amount is 0, Q is 0, or the amount exceeds
Q; every error leaves the state (hence the stored record and its
`updated_at`) unchanged; otherwise the call succeeds with quantity Q - amount. -/
theorem offload_quantity_error_characterization (s : StoreState) (now id : Nat)
    (pay : StockPayload) (p : Product)
    (hm : _get_product s id = some p) :
    ((∃ m, (offload_quantity s now id pay).1
        = Outcome.err (Error.InvalidOperation m)) ↔
      (pay.amount = 0 ∨ p.quantity = 0 ∨ p.quantity < pay.amount)) ∧
    (∀ e, (offload_quantity s now id pay).1 = Outcome.err e →
      (offload_quantity s now id pay).2 = s) ∧
    (pay.amount ≠ 0 → p.quantity ≠ 0 → pay.amount ≤ p.quantity →
      (offload_quantity s now id pay).1 =
        Outcome.ok
          { p with
            quantity := p.quantity - pay.amount,
            updated_at := some now }) := by
  have hm2 : mapGet s.storage id = some p := hm
  refine ⟨⟨?_, ?_⟩, fun e he => offload_quantity_err_state s now id pay e he,
    fun h0 hq hle => offload_quantity_ok_intro s now id pay p hm2 h0 hq hle⟩
  · rintro ⟨m, hmm⟩
    by_cases h0 : pay.amount = 0
    · exact Or.inl h0
    · by_cases hq : p.quantity = 0
      · exact Or.inr (Or.inl hq)
      · by_cases hlt : p.quantity < pay.amount
        · exact Or.inr (Or.inr hlt)
        · rw [offload_quantity_ok_intro s now id pay p hm2 h0 hq
            (Nat.le_of_not_lt hlt)] at hmm
          exact absurd hmm (by simp)
  · intro hc
    by_cases h0 : pay.amount = 0
    · exact ⟨"Stock amount must be greater than zero.",
        by simp [offload_quantity, validate_stock_payload, h0]⟩
    · by_cases hq : p.quantity = 0
      · exact ⟨"Product with id=" ++ toString id ++
          " cannot be offloaded because the quantity is 0",
          by simp [offload_quantity, validate_stock_payload, h0, hm2, hq]⟩
      · have hlt : p.quantity < pay.amount := by
          rcases hc with hc | hc | hc
          · exact absurd hc h0
          · exact absurd hc hq
          · exact hc
        exact ⟨"Cannot offload more than available quantity. Available: " ++
          toString p.quantity ++ ", Trying to offload: " ++ toString pay.amount,
          by simp [offload_quantity, validate_stock_payload, h0, hm2, hq, hlt]⟩

/-- C7 witness: the spec's scenario, Bread with quantity 10 and an attempted
offload of 15. -/
theorem offload_quantity_error_characterization_witness :
    ((∃ m, (offload_quantity ⟨1, [(1, ⟨1, "Bread", Category.Bakery, 10, 5, none⟩)]⟩
        7 1 ⟨15⟩).1 = Outcome.err (Error.InvalidOperation m)) ↔
      ((⟨15⟩ : StockPayload).amount = 0 ∨
        (⟨1, "Bread", Category.Bakery, 10, 5, none⟩ : Product).quantity = 0 ∨
        (⟨1, "Bread", Category.Bakery, 10, 5, none⟩ : Product).quantity
          < (⟨15⟩ : StockPayload).amount)) ∧
    (∀ e, (offload_quantity ⟨1, [(1, ⟨1, "Bread", Category.Bakery, 10, 5, none⟩)]⟩
        7 1 ⟨15⟩).1 = Outcome.err e →
      (offload_quantity ⟨1, [(1, ⟨1, "Bread", Category.Bakery, 10, 5, none⟩)]⟩
        7 1 ⟨15⟩).2 = ⟨1, [(1, ⟨1, "Bread", Category.Bakery, 10, 5, none⟩)]⟩) ∧
    ((⟨15⟩ : StockPayload).amount ≠ 0 →
      (⟨1, "Bread", Category.Bakery, 10, 5, none⟩ : Product).quantity ≠ 0 →
      (⟨15⟩ : StockPayload).amount
        ≤ (⟨1, "Bread", Category.Bakery, 10, 5, none⟩ : Product).quantity →
      (offload_quantity ⟨1, [(1, ⟨1, "Bread", Category.Bakery, 10, 5, none⟩)]⟩
        7 1 ⟨15⟩).1 =
        Outcome.ok
          { (⟨1, "Bread", Category.Bakery, 10, 5, none⟩ : Product) with
            quantity := (⟨1, "Bread", Category.Bakery, 10, 5, none⟩ : Product).quantity
              - (⟨15⟩ : StockPayload).amount,
            updated_at := some 7 }) :=
  offload_quantity_error_characterization
    ⟨1, [(1, ⟨1, "Bread", Category.Bakery, 10, 5, none⟩)]⟩ 7 1 ⟨15⟩
    ⟨1, "Bread", Category.Bakery, 10, 5, none⟩ rfl

/-- C8: a successful `update_product` overwrites exactly `name`, `category`
and `quantity` with the payload's values and stamps `updated_at` with the
current time, while the record's `id` and `created_at` are preserved; the new
state just re-inserts the updated record. -/
theorem update_product_preserves_identity (s : StoreState) (now id : Nat)
    (pay : ProductPayload) (p q : Product)
    (hm : _get_product s id = some p)
    (h : (update_product s now id pay).1 = Outcome.ok q) :
    q.id = p.id ∧ q.created_at = p.created_at ∧ q.name = pay.name ∧
    q.category = pay.category ∧ q.quantity = pay.quantity ∧
    q.updated_at = some now ∧
    (update_product s now id pay).2 = do_insert s q := by
  have hm2 : mapGet s.storage id = some p := hm
  cases hv : validate_product_payload pay with
  | error e => simp [update_product, hv] at h
  | ok u =>
    cases u
    simp only [update_product, hv, hm2] at h
    rw [Outcome.ok.injEq] at h
    subst h
    refine ⟨rfl, rfl, rfl, rfl, rfl, rfl, ?_⟩
    simp only [update_product, hv, hm2]

/-- C8 witness: updating Bread to Cake with quantity 4 keeps id 1 and
created_at 5. -/
theorem update_product_preserves_identity_witness :
    (update_product ⟨1, [(1, ⟨1, "Bread", Category.Bakery, 10, 5, none⟩)]⟩
        9 1 ⟨"Cake", 4, Category.Cake⟩).1
      = Outcome.ok ⟨1, "Cake", Category.Cake, 4, 5, some 9⟩ ∧
    ((⟨1, "Cake", Category.Cake, 4, 5, some 9⟩ : Product).id
        = (⟨1, "Bread", Category.Bakery, 10, 5, none⟩ : Product).id ∧
      (⟨1, "Cake", Category.Cake, 4, 5, some 9⟩ : Product).created_at
        = (⟨1, "Bread", Category.Bakery, 10, 5, none⟩ : Product).created_at ∧
      (⟨1, "Cake", Category.Cake, 4, 5, some 9⟩ : Product).name
        = (⟨"Cake", 4, Category.Cake⟩ : ProductPayload).name ∧
      (⟨1, "Cake", Category.Cake, 4, 5, some 9⟩ : Product).category
        = (⟨"Cake", 4, Category.Cake⟩ : ProductPayload).category ∧
      (⟨1, "Cake", Category.Cake, 4, 5, some 9⟩ : Product).quantity
        = (⟨"Cake", 4, Category.Cake⟩ : ProductPayload).quantity ∧
      (⟨1, "Cake", Category.Cake, 4, 5, some 9⟩ : Product).updated_at = some 9 ∧
      (update_product ⟨1, [(1, ⟨1, "Bread", Category.Bakery, 10, 5, none⟩)]⟩
          9 1 ⟨"Cake", 4, Category.Cake⟩).2
        = do_insert ⟨1, [(1, ⟨1, "Bread", Category.Bakery, 10, 5, none⟩)]⟩
            ⟨1, "Cake", Category.Cake, 4, 5, some 9⟩) :=
  ⟨by decide,
    update_product_preserves_identity
      ⟨1, [(1, ⟨1, "Bread", Category.Bakery, 10, 5, none⟩)]⟩ 9 1
      ⟨"Cake", 4, Category.Cake⟩ ⟨1, "Bread", Category.Bakery, 10, 5, none⟩
      ⟨1, "Cake", Category.Cake, 4, 5, some 9⟩ rfl (by decide)⟩

/-- C9: a successful `add_quantity` or `offload_quantity` changes only the
target record's `quantity` and `updated_at`: the target's `id`, `name`,
`category` and `created_at` are preserved, every record under a different id
is unchanged, and the id counter is unchanged.  (`hid` records that a stored
record is keyed by its own id, which holds in every reachable state.) -/
theorem stock_adjustments_frame (s : StoreState) (now id : Nat)
    (pay : StockPayload) (p : Product)
    (hm : _get_product s id = some p) (hid : p.id = id) :
    (∀ q, (add_quantity s now id pay).1 = Outcome.ok q →
      q.id = p.id ∧ q.name = p.name ∧ q.category = p.category ∧
      q.created_at = p.created_at ∧
      (add_quantity s now id pay).2.idCounter = s.idCounter ∧
      _get_product (add_quantity s now id pay).2 id = some q ∧
      (∀ j, j ≠ id → _get_product (add_quantity s now id pay).2 j
        = _get_product s j)) ∧
    (∀ q, (offload_quantity s now id pay).1 = Outcome.ok q →
      q.id = p.id ∧ q.name = p.name ∧ q.category = p.category ∧
      q.created_at = p.created_at ∧
      (offload_quantity s now id pay).2.idCounter = s.idCounter ∧
      _get_product (offload_quantity s now id pay).2 id = some q ∧
      (∀ j, j ≠ id → _get_product (offload_quantity s now id pay).2 j
        = _get_product s j)) := by
  have hm2 : mapGet s.storage id = some p := hm
  constructor
  · intro q hq
    obtain ⟨-, p2, hmp2, -, hq2, hstate⟩ := add_quantity_ok_elim s now id pay q hq
    rw [hm2] at hmp2
    obtain rfl : p2 = p := (Option.some.inj hmp2).symm
    subst hq2
    refine ⟨rfl, rfl, rfl, rfl, ?_, ?_, ?_⟩
    · rw [hstate, do_insert_idCounter]
    · show mapGet (add_quantity s now id pay).2.storage id = _
      rw [hstate, do_insert_storage]
      simp only [hid]
      exact mapGet_mapInsert_self s.storage id _
    · intro j hj
      show mapGet (add_quantity s now id pay).2.storage j = mapGet s.storage j
      rw [hstate, do_insert_storage]
      simp only [hid]
      exact mapGet_mapInsert_ne s.storage id j _ hj
  · intro q hq
    obtain ⟨-, p2, hmp2, -, hle, hq2, hstate⟩ :=
      offload_quantity_ok_elim s now id pay q hq
    rw [hm2] at hmp2
    obtain rfl : p2 = p := (Option.some.inj hmp2).symm
    subst hq2
    refine ⟨rfl, rfl, rfl, rfl, ?_, ?_, ?_⟩
    · rw [hstate, do_insert_idCounter]
    · show mapGet (offload_quantity s now id pay).2.storage id = _
      rw [hstate, do_insert_storage]
      simp only [hid]
      exact mapGet_mapInsert_self s.storage id _
    · intro j hj
      show mapGet (offload_quantity s now id pay).2.storage j = mapGet s.storage j
      rw [hstate, do_insert_storage]
      simp only [hid]
      exact mapGet_mapInsert_ne s.storage id j _ hj

/-- C9 witness: a two-record store, adjusting stock of product 1 only. -/
theorem stock_adjustments_frame_witness :
    (∀ q, (add_quantity
        ⟨2, [(1, ⟨1, "Bread", Category.Bakery, 10, 5, none⟩),
             (2, ⟨2, "Tart", Category.Cake, 3, 6, none⟩)]⟩ 7 1 ⟨4⟩).1
        = Outcome.ok q →
      q.id = (⟨1, "Bread", Category.Bakery, 10, 5, none⟩ : Product).id ∧
      q.name = (⟨1, "Bread", Category.Bakery, 10, 5, none⟩ : Product).name ∧
      q.category = (⟨1, "Bread", Category.Bakery, 10, 5, none⟩ : Product).category ∧
      q.created_at = (⟨1, "Bread", Category.Bakery, 10, 5, none⟩ : Product).created_at ∧
      (add_quantity
        ⟨2, [(1, ⟨1, "Bread", Category.Bakery, 10, 5, none⟩),
             (2, ⟨2, "Tart", Category.Cake, 3, 6, none⟩)]⟩ 7 1 ⟨4⟩).2.idCounter
        = (⟨2, [(1, ⟨1, "Bread", Category.Bakery, 10, 5, none⟩),
             (2, ⟨2, "Tart", Category.Cake, 3, 6, none⟩)]⟩ : StoreState).idCounter ∧
      _get_product (add_quantity
        ⟨2, [(1, ⟨1, "Bread", Category.Bakery, 10, 5, none⟩),
             (2, ⟨2, "Tart", Category.Cake, 3, 6, none⟩)]⟩ 7 1 ⟨4⟩).2 1 = some q ∧
      (∀ j, j ≠ 1 → _get_product (add_quantity
        ⟨2, [(1, ⟨1, "Bread", Category.Bakery, 10, 5, none⟩),
             (2, ⟨2, "Tart", Category.Cake, 3, 6, none⟩)]⟩ 7 1 ⟨4⟩).2 j
        = _get_product
          ⟨2, [(1, ⟨1, "Bread", Category.Bakery, 10, 5, none⟩),
               (2, ⟨2, "Tart", Category.Cake, 3, 6, none⟩)]⟩ j)) ∧
    (∀ q, (offload_quantity
        ⟨2, [(1, ⟨1, "Bread", Category.Bakery, 10, 5, none⟩),
             (2, ⟨2, "Tart", Category.Cake, 3, 6, none⟩)]⟩ 7 1 ⟨4⟩).1
        = Outcome.ok q →
      q.id = (⟨1, "Bread", Category.Bakery, 10, 5, none⟩ : Product).id ∧
      q.name = (⟨1, "Bread", Category.Bakery, 10, 5, none⟩ : Product).name ∧
      q.category = (⟨1, "Bread", Category.Bakery, 10, 5, none⟩ : Product).category ∧
      q.created_at = (⟨1, "Bread", Category.Bakery, 10, 5, none⟩ : Product).created_at ∧
      (offload_quantity
        ⟨2, [(1, ⟨1, "Bread", Category.Bakery, 10, 5, none⟩),
             (2, ⟨2, "Tart", Category.Cake, 3, 6, none⟩)]⟩ 7 1 ⟨4⟩).2.idCounter
        = (⟨2, [(1, ⟨1, "Bread", Category.Bakery, 10, 5, none⟩),
             (2, ⟨2, "Tart", Category.Cake, 3, 6, none⟩)]⟩ : StoreState).idCounter ∧
      _get_product (offload_quantity
        ⟨2, [(1, ⟨1, "Bread", Category.Bakery, 10, 5, none⟩),
             (2, ⟨2, "Tart", Category.Cake, 3, 6, none⟩)]⟩ 7 1 ⟨4⟩).2 1 = some q ∧
      (∀ j, j ≠ 1 → _get_product (offload_quantity
        ⟨2, [(1, ⟨1, "Bread", Category.Bakery, 10, 5, none⟩),
             (2, ⟨2, "Tart", Category.Cake, 3, 6, none⟩)]⟩ 7 1 ⟨4⟩).2 j
        = _get_product
          ⟨2, [(1, ⟨1, "Bread", Category.Bakery, 10, 5, none⟩),
               (2, ⟨2, "Tart", Category.Cake, 3, 6, none⟩)]⟩ j)) :=
  stock_adjustments_frame
    ⟨2, [(1, ⟨1, "Bread", Category.Bakery, 10, 5, none⟩),
         (2, ⟨2, "Tart", Category.Cake, 3, 6, none⟩)]⟩ 7 1 ⟨4⟩
    ⟨1, "Bread", Category.Bakery, 10, 5, none⟩ rfl rfl

/-- C10: `get_stock` succeeds exactly when `get_product` does, and on success
it returns precisely the quantity of the product `get_product` returns (which
is the stored record); both are queries that take the state and return only a
result, leaving the map and counter untouched. -/
theorem get_stock_matches_get_product (s : StoreState) (id : Nat) :
    ((∃ n, get_stock s id = Outcome.ok n) ↔
      (∃ p, get_product s id = Outcome.ok p)) ∧
    (∀ p, get_product s id = Outcome.ok p →
      get_stock s id = Outcome.ok p.quantity ∧ _get_product s id = some p) := by
  cases hm : _get_product s id with
  | none =>
    constructor
    · constructor
      · rintro ⟨n, hn⟩
        simp [get_stock, hm] at hn
      · rintro ⟨p, hp⟩
        simp [get_product, hm] at hp
    · intro p hp
      simp [get_product, hm] at hp
  | some p =>
    refine ⟨⟨fun _ => ⟨p, by simp [get_product, hm]⟩,
      fun _ => ⟨p.quantity, by simp [get_stock, hm]⟩⟩, ?_⟩
    intro p2 hp2
    simp only [get_product, hm] at hp2
    rw [Outcome.ok.injEq] at hp2
    subst hp2
    exact ⟨by simp [get_stock, hm], rfl⟩

end IcpBakery
